import Mathlib

/-!
# Coded errors: the code registry and the coded error chain

A shallow embedding of `pkg/errors/code.go` (and of the fixtures of
`pkg/errors/mocks_test.go`).

* Go `int` values are `Int`; no arithmetic is performed on codes or HTTP
  statuses, so no overflow can occur.
* The process-wide table `codes` (a Go `map[int]Coder`) is passed explicitly as
  a finite-map-like function `Int → Option Coder`; `none` is "key not present".
* A Go `panic` is an explicit outcome: the registry as the call left it,
  together with the panic value.  The mutex `codeMux` only serialises callers
  and is not part of the sequential model.
* The methods of a `Coder` are taken to be pure, as they are for
  `defaultCoder`.
* Errors are finite trees; a nil pointer of type `*withCode` stored in an
  `error` value, on which `IsCode` would dereference nil, is not represented.
-/

namespace Errors

/-! ## Code metadata -/

/-- The struct `defaultCoder`: HTTP status, integer code, external text. -/
structure defaultCoder where
  HTTP : Int
  C : Int
  Ext : String
  deriving DecidableEq, Repr

/-- Method `defaultCoder.HTTPStatus`. -/
def defaultCoder.HTTPStatus (coder : defaultCoder) : Int :=
  if coder.HTTP == 0 then
    500
  else
    coder.HTTP

/-- Method `defaultCoder.Code`. -/
def defaultCoder.Code (coder : defaultCoder) : Int :=
  coder.C

/-- Method `defaultCoder.String`. -/
def defaultCoder.String (coder : defaultCoder) : String :=
  coder.Ext

/-- A non-nil value of the interface `Coder`: either a `defaultCoder`, or any
other implementation, represented by what its three methods return. -/
inductive Coder where
  | default (d : defaultCoder)
  | custom (httpStatus : Int) (code : Int) (text : String)
  deriving DecidableEq, Repr

/-- Interface method `Coder.HTTPStatus`. -/
def Coder.HTTPStatus : Coder → Int
  | .default d => d.HTTPStatus
  | .custom h _ _ => h

/-- Interface method `Coder.Code`. -/
def Coder.Code : Coder → Int
  | .default d => d.Code
  | .custom _ c _ => c

/-- Interface method `Coder.String`. -/
def Coder.String : Coder → String
  | .default d => d.String
  | .custom _ _ t => t

/-- The constant `http.StatusInternalServerError`. -/
def StatusInternalServerError : Int := 500

/-- The package variable `unknownCoder`. -/
def unknownCoder : defaultCoder :=
  { HTTP := StatusInternalServerError,
    C := 0,
    Ext := "An internal server error occurred" }

/-! ## The registry -/

/-- A state of the table `codes`, a `map[int]Coder`. -/
abbrev Registry := Int → Option Coder

/-- The map assignment `codes[k] = v`. -/
def Registry.set (codes : Registry) (k : Int) (v : Coder) : Registry :=
  fun k' => if k' = k then some v else codes k'

/-- The initial value of the package variable `codes`: `map[int]Coder{}`. -/
def codes : Registry := fun _ => none

/-- The function `init` of `code.go`: `codes[unknownCoder.Code()] = unknownCoder`. -/
def init (codes : Registry) : Registry :=
  codes.set unknownCoder.Code (.default unknownCoder)

/-- The table once `init` of `code.go` has run. -/
def initialCodes : Registry := init codes

/-- What a registration call leaves behind: the table, and the panic value when
the call panicked. -/
structure Outcome where
  codes : Registry
  panicked : Option String

/-- The function `Register`. -/
def Register (codes : Registry) (coder : Coder) : Outcome :=
  if coder.Code == 0 then
    ⟨codes, some "code `0` is reserved as unknownCode error code"⟩
  else
    ⟨codes.set coder.Code coder, none⟩

/-- The function `MustRegister`. -/
def MustRegister (codes : Registry) (coder : Coder) : Outcome :=
  if coder.Code == 0 then
    ⟨codes, some "code `0` is reserved as unknownCode error code"⟩
  else
    match codes coder.Code with
    | some _ => ⟨codes, some ("code: " ++ toString coder.Code ++ " already exist")⟩
    | none => ⟨codes.set coder.Code coder, none⟩

/-! ## Errors and the coded chain -/

/-- Modelled from the spec: the declaration of the chain-node type `withCode`
is not under `src/`; `code.go` reads its fields `code` and `cause`, and the
spec gives a node a code, a message and a cause.  A value of the Go interface
`error` is `nil`, a chain node (`*withCode`), or an error of any other type,
kept with its text and with the error it may itself wrap. -/
inductive Error where
  | nil
  | withCode (message : String) (code : Int) (cause : Error)
  | other (text : String) (wrapped : Error)
  deriving DecidableEq, Repr

/-- Modelled from the spec: `Wrapc` is called by `mocks_test.go` and is not
under `src/`.  It builds a chain node with the given code and message whose
cause is `cause`; wrapping the absence of an error yields the absence of an
error. -/
def Wrapc (cause : Error) (code : Int) (message : String) : Error :=
  match cause with
  | .nil => .nil
  | _ => .withCode message code cause

/-- The function `ParseCoder`; `none` is the nil `Coder`. -/
def ParseCoder (codes : Registry) (err : Error) : Option Coder :=
  match err with
  | .nil => none
  | .withCode _ code _ =>
    match codes code with
    | some coder => some coder
    | none => some (.default unknownCoder)
  | .other _ _ => some (.default unknownCoder)

/-- The function `IsCode`. -/
def IsCode : Error → Int → Bool
  | .withCode _ vcode cause, code =>
    if vcode == code then
      true
    else
      match cause with
      | .nil => false
      | _ => IsCode cause code
  | _, _ => false

/-! ## Fixtures of `mocks_test.go` -/

def ConfigurationNotValid : Int := 0 + 1000
def ErrInvalidJSON : Int := 1 + 1000
def ErrEOF : Int := 2 + 1000
def ErrLoadConfigFailed : Int := 3 + 1000

/-- The function `init` of `mocks_test.go`: four `Register` calls in a row. -/
def mocksInit (codes : Registry) : Registry :=
  let c1 := (Register codes
    (.default ⟨500, ConfigurationNotValid, "ConfigurationNotValid error"⟩)).codes
  let c2 := (Register c1 (.default ⟨500, ErrInvalidJSON, "Data is not valid JSON"⟩)).codes
  let c3 := (Register c2 (.default ⟨500, ErrEOF, "End of input"⟩)).codes
  (Register c3 (.default ⟨500, ErrLoadConfigFailed, "Load configuration file failed"⟩)).codes

/-- The table in the test binary: both `init` functions have run. -/
def mocksCodes : Registry := mocksInit initialCodes

/-- The function `readConfig`. -/
def readConfig : Error :=
  let err := Error.other "read: end of input" .nil
  Wrapc err ErrEOF "could not read configuration file"

/-- The function `decodeConfig`. -/
def decodeConfig : Error :=
  let err := readConfig
  Wrapc err ErrInvalidJSON "could not decode configuration data"

/-- The function `loadConfig`. -/
def loadConfig : Error :=
  let err := decodeConfig
  Wrapc err ConfigurationNotValid "service configuration could not be loaded"

/-! ## Callers: sequences of registration calls -/

/-- The type assertion `err.(*withCode)`: whether it succeeds. -/
def Error.isChainNode : Error → Bool
  | .withCode _ _ _ => true
  | _ => false

/-- One registration call of a client program. -/
inductive Call where
  | register (coder : Coder)
  | mustRegister (coder : Coder)

/-- Perform one registration call. -/
def Call.run (codes : Registry) : Call → Outcome
  | .register coder => Register codes coder
  | .mustRegister coder => MustRegister codes coder

/-- Perform a finite sequence of registration calls, one after the other; a call
that panics (and is recovered from) leaves the table as `Outcome.codes` says. -/
def runCalls (codes : Registry) : List Call → Registry
  | [] => codes
  | call :: rest => runCalls (call.run codes).codes rest

/-! ## Specification-side notions -/

/-- Specification of chain membership, in the words of the claim:
`Reaches err node` holds when `node` is a chain node reachable from `err` by
following cause links through consecutive chain nodes, starting with `err`
itself. -/
inductive Reaches : Error → Error → Prop where
  | self (message : String) (code : Int) (cause : Error) :
      Reaches (.withCode message code cause) (.withCode message code cause)
  | next (message : String) (code : Int) {cause node : Error} :
      Reaches cause node → Reaches (.withCode message code cause) node

/-- Specification of key and code agreement: every entry of the table is stored
under the code its own `Code` method returns. -/
def KeysMatchCodes (codes : Registry) : Prop :=
  ∀ k v, codes k = some v → v.Code = k

/-! ## Lock discipline

The same functions, read for what they do to the mutex `codeMux` and to the
table `codes`, in program order. -/

/-- One operation on the mutex `codeMux` or on the table `codes`. -/
inductive Event where
  | lock
  | unlock
  | read (key : Int)
  | write (key : Int)
  deriving DecidableEq, Repr

/-- The operations of `Register`: the zero test panics before `codeMux.Lock()`;
otherwise lock, the assignment `codes[coder.Code()] = coder`, and the deferred
unlock. -/
def RegisterTrace (coder : Coder) : List Event :=
  if coder.Code == 0 then
    []
  else
    [.lock, .write coder.Code, .unlock]

/-- The operations of `MustRegister`: the zero test panics before
`codeMux.Lock()`; otherwise lock, the lookup `codes[coder.Code()]`, the
assignment when the lookup missed, and the deferred unlock (which also runs
when the call panics after the lookup). -/
def MustRegisterTrace (codes : Registry) (coder : Coder) : List Event :=
  if coder.Code == 0 then
    []
  else
    match codes coder.Code with
    | some _ => [.lock, .read coder.Code, .unlock]
    | none => [.lock, .read coder.Code, .write coder.Code, .unlock]

/-- The operations of `ParseCoder`: for a chain node the lookup `codes[v.code]`,
and nothing else; the function never touches `codeMux`. -/
def ParseCoderTrace (err : Error) : List Event :=
  match err with
  | .nil => []
  | .withCode _ code _ => [.read code]
  | .other _ _ => []

/-- Whether every read and write of the table in a sequence of operations
happens while the mutex is held; the first argument says whether it is held at
the start. -/
def accessesUnderLock : Bool → List Event → Bool
  | _, [] => true
  | _, .lock :: rest => accessesUnderLock true rest
  | _, .unlock :: rest => accessesUnderLock false rest
  | held, .read _ :: rest => held && accessesUnderLock held rest
  | held, .write _ :: rest => held && accessesUnderLock held rest

/-! ## Basic lemmas -/

theorem Registry.set_same (codes : Registry) (k : Int) (v : Coder) :
    (codes.set k v) k = some v := by
  simp [Registry.set]

theorem Registry.set_other (codes : Registry) (k k' : Int) (v : Coder) (h : k' ≠ k) :
    (codes.set k v) k' = codes k' := by
  simp [Registry.set, h]

theorem Register_of_ne_zero (codes : Registry) (coder : Coder) (h : coder.Code ≠ 0) :
    Register codes coder = ⟨codes.set coder.Code coder, none⟩ := by
  simp [Register, h]

theorem Register_of_zero (codes : Registry) (coder : Coder) (h : coder.Code = 0) :
    Register codes coder = ⟨codes, some "code `0` is reserved as unknownCode error code"⟩ := by
  simp [Register, h]

theorem MustRegister_of_zero (codes : Registry) (coder : Coder) (h : coder.Code = 0) :
    MustRegister codes coder
      = ⟨codes, some "code `0` is reserved as unknownCode error code"⟩ := by
  simp [MustRegister, h]

theorem MustRegister_of_present (codes : Registry) (coder old : Coder)
    (h : coder.Code ≠ 0) (hold : codes coder.Code = some old) :
    MustRegister codes coder
      = ⟨codes, some ("code: " ++ toString coder.Code ++ " already exist")⟩ := by
  simp [MustRegister, h, hold]

theorem MustRegister_of_absent (codes : Registry) (coder : Coder)
    (h : coder.Code ≠ 0) (hnone : codes coder.Code = none) :
    MustRegister codes coder = ⟨codes.set coder.Code coder, none⟩ := by
  simp [MustRegister, h, hnone]

theorem IsCode_withCode (message : String) (vcode : Int) (cause : Error) (code : Int) :
    IsCode (.withCode message vcode cause) code = (decide (vcode = code) || IsCode cause code) := by
  cases cause <;> simp [IsCode]

theorem IsCode_of_not_chainNode (err : Error) (code : Int) (h : err.isChainNode = false) :
    IsCode err code = false := by
  cases err <;> simp_all [IsCode, Error.isChainNode]

theorem Call.run_zero (codes : Registry) (call : Call) :
    (call.run codes).codes 0 = codes 0 := by
  cases call with
  | register coder =>
    by_cases h : coder.Code = 0
    · simp [Call.run, Register_of_zero _ _ h]
    · rw [Call.run, Register_of_ne_zero _ _ h]
      exact Registry.set_other _ _ _ _ (Ne.symm h)
  | mustRegister coder =>
    by_cases h : coder.Code = 0
    · simp [Call.run, MustRegister_of_zero _ _ h]
    · cases hold : codes coder.Code with
      | none =>
        rw [Call.run, MustRegister_of_absent _ _ h hold]
        exact Registry.set_other _ _ _ _ (Ne.symm h)
      | some old => rw [Call.run, MustRegister_of_present _ _ old h hold]

theorem runCalls_zero (calls : List Call) (codes : Registry) :
    runCalls codes calls 0 = codes 0 := by
  induction calls generalizing codes with
  | nil => rfl
  | cons call rest ih => rw [runCalls, ih, Call.run_zero]

/-! ## Registration followed by classification -/

/-- C1: for every registry state, every non-zero code `c`, every metadata `m`
with `m.Code = c`, every cause and every message, `Register m` succeeds and
afterwards `ParseCoder` of the chain node carrying `c` returns metadata whose
code is `c`, namely `m` itself; for a non-nil cause that node is
`Wrapc cause c msg`.  With 1000..1003 registered, `ParseCoder` of the 3-deep
chain built by `loadConfig` returns the metadata of the outermost code 1000. -/
theorem ParseCoder_Register_returns_code :
    (∀ (codes : Registry) (c : Int) (m : Coder) (anyErr : Error) (msg : String),
      c ≠ 0 → m.Code = c →
        (Register codes m).panicked = none ∧
        (∃ r, ParseCoder (Register codes m).codes (.withCode msg c anyErr) = some r ∧
          r.Code = c ∧ r = m) ∧
        (anyErr ≠ .nil → Wrapc anyErr c msg = .withCode msg c anyErr)) ∧
    loadConfig
      = .withCode "service configuration could not be loaded" 1000
          (.withCode "could not decode configuration data" 1001
            (.withCode "could not read configuration file" 1002
              (.other "read: end of input" .nil))) ∧
    ParseCoder mocksCodes loadConfig
      = some (.default ⟨500, 1000, "ConfigurationNotValid error"⟩) ∧
    (∀ r, ParseCoder mocksCodes loadConfig = some r → r.Code = 1000) := by
  refine ⟨?_, by rfl, by rfl, ?_⟩
  · intro codes c m anyErr msg hc hm
    have hne : m.Code ≠ 0 := by rw [hm]; exact hc
    rw [Register_of_ne_zero codes m hne]
    refine ⟨rfl, ⟨m, ?_, hm, rfl⟩, ?_⟩
    · subst hm
      simp [ParseCoder, Registry.set_same]
    · intro hnil
      cases anyErr with
      | nil => exact absurd rfl hnil
      | withCode _ _ _ => rfl
      | other _ _ => rfl
  · intro r hr
    have h : ParseCoder mocksCodes loadConfig
        = some (.default ⟨500, 1000, "ConfigurationNotValid error"⟩) := by rfl
    rw [h] at hr
    cases hr
    rfl

/-- Instance of C1: code 7 registered over the initial table, then classified under a plain cause. -/
theorem ParseCoder_Register_returns_code_witness :
    (Register initialCodes (.custom 404 7 "not found")).panicked = none ∧
    (∃ r, ParseCoder (Register initialCodes (.custom 404 7 "not found")).codes
        (.withCode "msg" 7 (.other "plain" .nil)) = some r ∧
      r.Code = 7 ∧ r = .custom 404 7 "not found") ∧
    (Error.other "plain" .nil ≠ .nil →
      Wrapc (.other "plain" .nil) 7 "msg" = .withCode "msg" 7 (.other "plain" .nil)) :=
  ParseCoder_Register_returns_code.1 initialCodes 7 (.custom 404 7 "not found")
    (.other "plain" .nil) "msg" (by decide) rfl

/-! ## The fatal paths of registration -/

/-- C3: for every registry state and every metadata whose code is 0, whatever
its HTTP status and external text, both `Register` and `MustRegister` take the
panic path, and the table is left without the entry, exactly as it was. -/
theorem Register_MustRegister_zero_panics (codes : Registry) (coder : Coder)
    (h : coder.Code = 0) :
    (Register codes coder).panicked
        = some "code `0` is reserved as unknownCode error code" ∧
      (Register codes coder).codes = codes ∧
      (MustRegister codes coder).panicked
        = some "code `0` is reserved as unknownCode error code" ∧
      (MustRegister codes coder).codes = codes := by
  rw [Register_of_zero codes coder h, MustRegister_of_zero codes coder h]
  exact ⟨rfl, rfl, rfl, rfl⟩

/-- Instance of C3: metadata with code 0 and HTTP status 404, on the empty table. -/
theorem Register_MustRegister_zero_panics_witness :
    (Coder.default ⟨404, 0, "not found"⟩).Code = 0 ∧
    (Register codes (.default ⟨404, 0, "not found"⟩)).panicked
        = some "code `0` is reserved as unknownCode error code" ∧
      (Register codes (.default ⟨404, 0, "not found"⟩)).codes = codes ∧
      (MustRegister codes (.default ⟨404, 0, "not found"⟩)).panicked
        = some "code `0` is reserved as unknownCode error code" ∧
      (MustRegister codes (.default ⟨404, 0, "not found"⟩)).codes = codes :=
  ⟨rfl, Register_MustRegister_zero_panics codes (.default ⟨404, 0, "not found"⟩) rfl⟩

/-- C4: `MustRegister m` takes the panic path exactly when the code of `m` is
0 or is already present in the table; hence for two metadata values with the
same non-zero code, `MustRegister m1` followed by `MustRegister m2` panics on
the second call with the "already exist" value, whether or not the first call
succeeded, and the second call leaves the table as the first left it. -/
theorem MustRegister_panics_iff_zero_or_present :
    (∀ (codes : Registry) (m : Coder),
      (MustRegister codes m).panicked.isSome = true
        ↔ (m.Code = 0 ∨ (codes m.Code).isSome = true)) ∧
    (∀ (codes : Registry) (m1 m2 : Coder), m1.Code ≠ 0 → m2.Code = m1.Code →
      (MustRegister (MustRegister codes m1).codes m2).panicked
          = some ("code: " ++ toString m2.Code ++ " already exist") ∧
        (MustRegister (MustRegister codes m1).codes m2).codes
          = (MustRegister codes m1).codes) := by
  constructor
  · intro codes m
    by_cases h : m.Code = 0
    · simp [MustRegister_of_zero codes m h, h]
    · cases hold : codes m.Code with
      | none => simp [MustRegister_of_absent codes m h hold, h]
      | some old => simp [MustRegister_of_present codes m old h hold]
  · intro codes m1 m2 h1 h12
    have h2 : m2.Code ≠ 0 := by rw [h12]; exact h1
    have hpresent : ∃ old, (MustRegister codes m1).codes m2.Code = some old := by
      rw [h12]
      cases hold : codes m1.Code with
      | none =>
        rw [MustRegister_of_absent codes m1 h1 hold]
        exact ⟨m1, Registry.set_same _ _ _⟩
      | some old =>
        rw [MustRegister_of_present codes m1 old h1 hold]
        exact ⟨old, hold⟩
    obtain ⟨old, hold⟩ := hpresent
    rw [MustRegister_of_present _ m2 old h2 hold]
    exact ⟨rfl, rfl⟩

/-- Instance of C4: code 7 offered to `MustRegister` twice over the initial table. -/
theorem MustRegister_panics_iff_zero_or_present_witness :
    (MustRegister (MustRegister initialCodes (.default ⟨400, 7, "first"⟩)).codes
        (.default ⟨404, 7, "second"⟩)).panicked
        = some ("code: " ++ toString (Coder.default ⟨404, 7, "second"⟩).Code
            ++ " already exist") ∧
      (MustRegister (MustRegister initialCodes (.default ⟨400, 7, "first"⟩)).codes
        (.default ⟨404, 7, "second"⟩)).codes
        = (MustRegister initialCodes (.default ⟨400, 7, "first"⟩)).codes :=
  MustRegister_panics_iff_zero_or_present.2 initialCodes (.default ⟨400, 7, "first"⟩)
    (.default ⟨404, 7, "second"⟩) (by decide) rfl

/-- C5: for every registry state and every two metadata values `m1`, `m2` with
the same non-zero code `c`, `Register m1` followed by `Register m2` succeeds
both times, the entry for `c` is then exactly `m2`, and the whole table is the
one `Register m2` alone would have produced, so nothing of `m1` remains. -/
theorem Register_twice_last_writer_wins (codes : Registry) (c : Int) (m1 m2 : Coder)
    (hc : c ≠ 0) (h1 : m1.Code = c) (h2 : m2.Code = c) :
    (Register codes m1).panicked = none ∧
      (Register (Register codes m1).codes m2).panicked = none ∧
      (Register (Register codes m1).codes m2).codes c = some m2 ∧
      (Register (Register codes m1).codes m2).codes = (Register codes m2).codes := by
  have hm1 : m1.Code ≠ 0 := by rw [h1]; exact hc
  have hm2 : m2.Code ≠ 0 := by rw [h2]; exact hc
  rw [Register_of_ne_zero codes m1 hm1, Register_of_ne_zero _ m2 hm2,
    Register_of_ne_zero codes m2 hm2]
  refine ⟨rfl, rfl, ?_, ?_⟩
  · rw [← h2]
    exact Registry.set_same _ _ _
  · funext k
    simp only [Registry.set, h1, h2]
    split <;> rfl

/-- Instance of C5: code 7 registered twice over the initial table. -/
theorem Register_twice_last_writer_wins_witness :
    (Register initialCodes (.default ⟨400, 7, "first"⟩)).panicked = none ∧
      (Register (Register initialCodes (.default ⟨400, 7, "first"⟩)).codes
        (.default ⟨404, 7, "second"⟩)).panicked = none ∧
      (Register (Register initialCodes (.default ⟨400, 7, "first"⟩)).codes
        (.default ⟨404, 7, "second"⟩)).codes 7 = some (.default ⟨404, 7, "second"⟩) ∧
      (Register (Register initialCodes (.default ⟨400, 7, "first"⟩)).codes
        (.default ⟨404, 7, "second"⟩)).codes
        = (Register initialCodes (.default ⟨404, 7, "second"⟩)).codes :=
  Register_twice_last_writer_wins initialCodes 7 (.default ⟨400, 7, "first"⟩)
    (.default ⟨404, 7, "second"⟩) (by decide) rfl rfl

/-! ## Membership along the chain -/

/-- C2: `IsCode err code` is true if and only if some chain node reachable from
`err` through consecutive chain nodes (starting with `err` itself) carries
`code`.  For `e3 = Wrapc (Wrapc (Wrapc baseErr 1 "a") 2 "b") 3 "c"` over a
plain base error, `IsCode` holds for 1, 2 and 3 and fails for 4; for the
`loadConfig` chain it holds for 1000, 1001 and 1002 and fails for 1004. -/
theorem IsCode_iff_reaches_node_with_code :
    (∀ (err : Error) (code : Int),
      IsCode err code = true ↔ ∃ message cause, Reaches err (.withCode message code cause)) ∧
    (∀ (text : String) (wrapped : Error),
      IsCode (Wrapc (Wrapc (Wrapc (.other text wrapped) 1 "a") 2 "b") 3 "c") 1 = true ∧
      IsCode (Wrapc (Wrapc (Wrapc (.other text wrapped) 1 "a") 2 "b") 3 "c") 2 = true ∧
      IsCode (Wrapc (Wrapc (Wrapc (.other text wrapped) 1 "a") 2 "b") 3 "c") 3 = true ∧
      IsCode (Wrapc (Wrapc (Wrapc (.other text wrapped) 1 "a") 2 "b") 3 "c") 4 = false) ∧
    (IsCode loadConfig 1000 = true ∧ IsCode loadConfig 1001 = true ∧
      IsCode loadConfig 1002 = true ∧ IsCode loadConfig 1004 = false) := by
  refine ⟨?_, ?_, by decide⟩
  · intro err code
    induction err with
    | nil =>
      constructor
      · intro h; simp [IsCode] at h
      · rintro ⟨_, _, h⟩; cases h
    | other text wrapped _ =>
      constructor
      · intro h; simp [IsCode] at h
      · rintro ⟨_, _, h⟩; cases h
    | withCode message vcode cause ih =>
      rw [IsCode_withCode]
      constructor
      · intro h
        by_cases hv : vcode = code
        · subst hv
          exact ⟨message, cause, Reaches.self _ _ _⟩
        · have hc : IsCode cause code = true := by simpa [hv] using h
          obtain ⟨m, c, hr⟩ := ih.mp hc
          exact ⟨m, c, Reaches.next _ _ hr⟩
      · rintro ⟨m, c, hr⟩
        cases hr with
        | self => simp
        | next _ _ hr =>
          have hc : IsCode cause code = true := ih.mpr ⟨m, c, hr⟩
          simp [hc]
  · intro text wrapped
    simp [Wrapc, IsCode_withCode, IsCode]

/-! ## The sentinel -/

/-- C6: in the initial registry and after every finite sequence of `Register`
and `MustRegister` calls, each succeeding or panicking, the table has an entry
for code 0, and that entry is the unknown sentinel: HTTP status 500, code 0,
text "An internal server error occurred". -/
theorem sentinel_invariant (calls : List Call) :
    runCalls initialCodes calls 0 = some (.default unknownCoder) ∧
      (Coder.default unknownCoder).HTTPStatus = 500 ∧
      (Coder.default unknownCoder).Code = 0 ∧
      (Coder.default unknownCoder).String = "An internal server error occurred" := by
  refine ⟨?_, by decide, by decide, by decide⟩
  rw [runCalls_zero]
  rfl

/-! ## Classification of the head -/

/-- C7: for every registry state and every non-nil error that is not a chain
node, `ParseCoder` returns the unknown sentinel, whose code is 0 and whose HTTP
status is 500. -/
theorem ParseCoder_not_chainNode (codes : Registry) (err : Error)
    (hnil : err ≠ .nil) (hchain : err.isChainNode = false) :
    ∃ r, ParseCoder codes err = some r ∧ r = .default unknownCoder ∧
      r.Code = 0 ∧ r.HTTPStatus = 500 := by
  cases err with
  | nil => exact absurd rfl hnil
  | withCode _ _ _ => simp [Error.isChainNode] at hchain
  | other text wrapped => exact ⟨.default unknownCoder, rfl, rfl, by decide, by decide⟩

/-- Instance of C7: the plain error of `readConfig`, classified against the test table. -/
theorem ParseCoder_not_chainNode_witness :
    ∃ r, ParseCoder mocksCodes (.other "read: end of input" .nil) = some r ∧
      r = .default unknownCoder ∧ r.Code = 0 ∧ r.HTTPStatus = 500 :=
  ParseCoder_not_chainNode mocksCodes (.other "read: end of input" .nil) (by decide) rfl

/-- C8: for every registry state and every chain node whose code `c` has no
entry in the table, `ParseCoder` returns the unknown sentinel (code 0),
whatever the cause of the node is, in particular when the cause is a chain
node whose own code is registered. -/
theorem ParseCoder_unregistered_head (codes : Registry) (message : String) (c : Int)
    (cause : Error) (h : codes c = none) :
    ParseCoder codes (.withCode message c cause) = some (.default unknownCoder) ∧
      (∀ r, ParseCoder codes (.withCode message c cause) = some r → r.Code = 0) := by
  have hp : ParseCoder codes (.withCode message c cause) = some (.default unknownCoder) := by
    simp [ParseCoder, h]
  refine ⟨hp, ?_⟩
  intro r hr
  rw [hp] at hr
  cases hr
  rfl

/-- Instance of C8: an unregistered head 1004 over the `loadConfig` chain, whose own head 1000 is registered. -/
theorem ParseCoder_unregistered_head_witness :
    mocksCodes 1004 = none ∧
    ParseCoder mocksCodes loadConfig
      = some (.default ⟨500, 1000, "ConfigurationNotValid error"⟩) ∧
    ParseCoder mocksCodes (.withCode "outer" 1004 loadConfig) = some (.default unknownCoder) ∧
      (∀ r, ParseCoder mocksCodes (.withCode "outer" 1004 loadConfig) = some r → r.Code = 0) :=
  ⟨by rfl, by rfl, ParseCoder_unregistered_head mocksCodes "outer" 1004 loadConfig (by rfl)⟩

/-- C9: for every registry state, `ParseCoder` of the nil error returns the nil
`Coder` (the absence of metadata), which is not the unknown sentinel. -/
theorem ParseCoder_nil (codes : Registry) :
    ParseCoder codes .nil = none ∧ ParseCoder codes .nil ≠ some (.default unknownCoder) := by
  constructor
  · rfl
  · simp [ParseCoder]

/-! ## Where the walk stops -/

/-- C10: for every code and every error that is not a chain node (the nil error
included), `IsCode` is false; consequently a chain node whose cause is such an
error is matched on its own code only, and nothing behind the non-chain cause
is examined, not even a chain node it wraps that carries the code. -/
theorem IsCode_stops_at_non_chain (err : Error) (code : Int)
    (h : err.isChainNode = false) :
    IsCode err code = false ∧
      (∀ (message : String) (vcode : Int),
        IsCode (.withCode message vcode err) code = decide (vcode = code)) ∧
      (∀ (text message : String) (vcode : Int) (hidden : Error), vcode ≠ code →
        IsCode (.withCode message vcode (.other text hidden)) code = false) := by
  have h0 := IsCode_of_not_chainNode err code h
  refine ⟨h0, ?_, ?_⟩
  · intro message vcode
    rw [IsCode_withCode, h0, Bool.or_false]
  · intro text message vcode hidden hv
    rw [IsCode_withCode, IsCode_of_not_chainNode (.other text hidden) code rfl, Bool.or_false]
    exact decide_eq_false hv

/-- Instance of C10: a plain error that wraps a chain node carrying 7 hides it from the walk. -/
theorem IsCode_stops_at_non_chain_witness :
    (Error.other "plain" (.withCode "inner" 7 .nil)).isChainNode = false ∧
    IsCode (.withCode "inner" 7 .nil) 7 = true ∧
    IsCode (.other "plain" (.withCode "inner" 7 .nil)) 7 = false ∧
    IsCode (.withCode "outer" 1 (.other "plain" (.withCode "inner" 7 .nil))) 7 = false :=
  ⟨rfl, by decide,
    (IsCode_stops_at_non_chain (.other "plain" (.withCode "inner" 7 .nil)) 7 rfl).1,
    by
      have h := (IsCode_stops_at_non_chain
        (.other "plain" (.withCode "inner" 7 .nil)) 7 rfl).2.1 "outer" 1
      rw [h]
      decide⟩

/-! ## The methods of `defaultCoder` -/

/-- C11: for every `defaultCoder`, `HTTPStatus` returns 500 when the stored HTTP
status is zero and the stored status unchanged otherwise; `Code` and `String`
return the stored code and external text unchanged. -/
theorem defaultCoder_methods (coder : defaultCoder) :
    (coder.HTTP = 0 → coder.HTTPStatus = 500) ∧
      (coder.HTTP ≠ 0 → coder.HTTPStatus = coder.HTTP) ∧
      coder.Code = coder.C ∧
      coder.String = coder.Ext := by
  refine ⟨?_, ?_, rfl, rfl⟩
  · intro h
    simp [defaultCoder.HTTPStatus, h]
  · intro h
    simp [defaultCoder.HTTPStatus, h]

/-- Instance of C11: an unset status reads as 500, a set status 404 reads as 404. -/
theorem defaultCoder_methods_witness :
    (defaultCoder.mk 0 7 "seven").HTTPStatus = 500 ∧
    (defaultCoder.mk 404 7 "seven").HTTPStatus = 404 ∧
    (defaultCoder.mk 404 7 "seven").Code = 7 ∧
    (defaultCoder.mk 404 7 "seven").String = "seven" :=
  ⟨(defaultCoder_methods ⟨0, 7, "seven"⟩).1 rfl,
    (defaultCoder_methods ⟨404, 7, "seven"⟩).2.1 (by decide),
    (defaultCoder_methods ⟨404, 7, "seven"⟩).2.2.1,
    (defaultCoder_methods ⟨404, 7, "seven"⟩).2.2.2⟩

/-- C12: the doc comment of `HTTPStatus` promises 200 when no status is set;
evaluated on a `defaultCoder` with the HTTP field zero the method returns 500,
not 200, and in general it returns 200 only when 200 is the stored status. -/
theorem HTTPStatus_unset_returns_500_not_200 :
    (defaultCoder.mk 0 1 "no status set").HTTPStatus = 500 ∧
    (defaultCoder.mk 0 1 "no status set").HTTPStatus ≠ 200 ∧
    (∀ coder : defaultCoder, coder.HTTPStatus = 200 ↔ coder.HTTP = 200) := by
  refine ⟨by decide, by decide, ?_⟩
  intro coder
  unfold defaultCoder.HTTPStatus
  by_cases h : coder.HTTP = 0
  · simp [h]
  · simp [h]

/-! ## `MustRegister` against `Register` -/

/-- C13: for every registry state and every metadata `m` whose code is non-zero
and not present in the table, `MustRegister m` succeeds and leaves exactly the
table that `Register m` leaves. -/
theorem MustRegister_eq_Register_of_absent (codes : Registry) (m : Coder)
    (h0 : m.Code ≠ 0) (habsent : codes m.Code = none) :
    (MustRegister codes m).panicked = none ∧
      (Register codes m).panicked = none ∧
      (MustRegister codes m).codes = (Register codes m).codes ∧
      (MustRegister codes m).codes m.Code = some m := by
  rw [MustRegister_of_absent codes m h0 habsent, Register_of_ne_zero codes m h0]
  exact ⟨rfl, rfl, rfl, Registry.set_same _ _ _⟩

/-- Instance of C13: code 7 is new to the initial table. -/
theorem MustRegister_eq_Register_of_absent_witness :
    initialCodes 7 = none ∧
    (MustRegister initialCodes (.default ⟨404, 7, "seven"⟩)).panicked = none ∧
      (Register initialCodes (.default ⟨404, 7, "seven"⟩)).panicked = none ∧
      (MustRegister initialCodes (.default ⟨404, 7, "seven"⟩)).codes
        = (Register initialCodes (.default ⟨404, 7, "seven"⟩)).codes ∧
      (MustRegister initialCodes (.default ⟨404, 7, "seven"⟩)).codes
        (Coder.default ⟨404, 7, "seven"⟩).Code = some (.default ⟨404, 7, "seven"⟩) :=
  ⟨by rfl,
    MustRegister_eq_Register_of_absent initialCodes (.default ⟨404, 7, "seven"⟩)
      (by decide) (by rfl)⟩

/-! ## The frame of a registration call -/

/-- C14: for every registry state, every metadata `m` and every code `k`, after
`Register m` or `MustRegister m`, whether the call succeeds or panics, `k` is
still present if it was present before, and if `k` is not the code of `m` it
maps to exactly the same metadata as before. -/
theorem registration_frame (codes : Registry) (m : Coder) (k : Int) :
    ((codes k).isSome = true → ((Register codes m).codes k).isSome = true) ∧
      (k ≠ m.Code → (Register codes m).codes k = codes k) ∧
      ((codes k).isSome = true → ((MustRegister codes m).codes k).isSome = true) ∧
      (k ≠ m.Code → (MustRegister codes m).codes k = codes k) := by
  by_cases h0 : m.Code = 0
  · rw [Register_of_zero codes m h0, MustRegister_of_zero codes m h0]
    exact ⟨id, fun _ => rfl, id, fun _ => rfl⟩
  · rw [Register_of_ne_zero codes m h0]
    have hset : (codes k).isSome = true → ((codes.set m.Code m) k).isSome = true := by
      intro hk
      by_cases hkm : k = m.Code
      · rw [hkm, Registry.set_same]; rfl
      · rw [Registry.set_other _ _ _ _ hkm]; exact hk
    refine ⟨hset, fun hk => Registry.set_other _ _ _ _ hk, ?_, ?_⟩
    · cases hold : codes m.Code with
      | none => rw [MustRegister_of_absent codes m h0 hold]; exact hset
      | some old => rw [MustRegister_of_present codes m old h0 hold]; exact id
    · cases hold : codes m.Code with
      | none =>
        rw [MustRegister_of_absent codes m h0 hold]
        exact fun hk => Registry.set_other _ _ _ _ hk
      | some old => rw [MustRegister_of_present codes m old h0 hold]; exact fun _ => rfl

/-- Instance of C14: re-registering 1000 over the test table leaves 1001 alone
and keeps 1000 present. -/
theorem registration_frame_witness :
    (Register mocksCodes (.default ⟨404, 1000, "redefined"⟩)).codes 1001
        = mocksCodes 1001 ∧
    (MustRegister mocksCodes (.default ⟨404, 1000, "redefined"⟩)).codes 1001
        = mocksCodes 1001 ∧
    ((Register mocksCodes (.default ⟨404, 1000, "redefined"⟩)).codes 1000).isSome = true ∧
    ((MustRegister mocksCodes (.default ⟨404, 1000, "redefined"⟩)).codes 1000).isSome = true :=
  ⟨(registration_frame mocksCodes (.default ⟨404, 1000, "redefined"⟩) 1001).2.1 (by decide),
    (registration_frame mocksCodes (.default ⟨404, 1000, "redefined"⟩) 1001).2.2.2 (by decide),
    (registration_frame mocksCodes (.default ⟨404, 1000, "redefined"⟩) 1000).1 (by rfl),
    (registration_frame mocksCodes (.default ⟨404, 1000, "redefined"⟩) 1000).2.2.1 (by rfl)⟩

/-! ## Wrapping the absence of an error -/

/-- C15: for every code and message, `Wrapc` of the nil error is the nil error,
so that for every registry state `ParseCoder` of the result is the nil `Coder`
and `IsCode` of the result is false for every code. -/
theorem Wrapc_nil (c : Int) (msg : String) :
    Wrapc .nil c msg = .nil ∧
      (∀ codes : Registry, ParseCoder codes (Wrapc .nil c msg) = none) ∧
      (∀ code : Int, IsCode (Wrapc .nil c msg) code = false) := by
  refine ⟨rfl, fun _ => rfl, fun code => ?_⟩
  simp [Wrapc, IsCode]

/-! ## Lock discipline of the lookup -/

/-- C16: the lookup of `ParseCoder` is not made under `codeMux`: for a chain
node its only operation is the read of `codes` at the head code, with the
mutex not held, whereas every table access of `Register` and `MustRegister`
happens between their lock and unlock. -/
theorem ParseCoder_reads_without_lock :
    ParseCoderTrace loadConfig = [.read 1000] ∧
    accessesUnderLock false (ParseCoderTrace loadConfig) = false ∧
    (∀ (message : String) (code : Int) (cause : Error),
      accessesUnderLock false (ParseCoderTrace (.withCode message code cause)) = false) ∧
    (∀ (codes : Registry) (coder : Coder),
      accessesUnderLock false (RegisterTrace coder) = true ∧
      accessesUnderLock false (MustRegisterTrace codes coder) = true) := by
  refine ⟨by rfl, by rfl, fun _ _ _ => rfl, fun codes coder => ⟨?_, ?_⟩⟩
  · unfold RegisterTrace
    split <;> rfl
  · unfold MustRegisterTrace
    split
    · rfl
    · split <;> rfl

/-! ## Keys agree with codes -/

theorem KeysMatchCodes.set {codes : Registry} (h : KeysMatchCodes codes) (coder : Coder) :
    KeysMatchCodes (codes.set coder.Code coder) := by
  intro k v hk
  by_cases hkc : k = coder.Code
  · rw [hkc, Registry.set_same] at hk
    cases hk
    exact hkc.symm
  · rw [Registry.set_other _ _ _ _ hkc] at hk
    exact h k v hk

theorem KeysMatchCodes.run {codes : Registry} (h : KeysMatchCodes codes) (call : Call) :
    KeysMatchCodes (call.run codes).codes := by
  cases call with
  | register coder =>
    by_cases h0 : coder.Code = 0
    · rw [Call.run, Register_of_zero _ _ h0]; exact h
    · rw [Call.run, Register_of_ne_zero _ _ h0]; exact h.set coder
  | mustRegister coder =>
    by_cases h0 : coder.Code = 0
    · rw [Call.run, MustRegister_of_zero _ _ h0]; exact h
    · cases hold : codes coder.Code with
      | none => rw [Call.run, MustRegister_of_absent _ _ h0 hold]; exact h.set coder
      | some old => rw [Call.run, MustRegister_of_present _ _ old h0 hold]; exact h

theorem KeysMatchCodes.runCalls (calls : List Call) {codes : Registry}
    (h : KeysMatchCodes codes) : KeysMatchCodes (runCalls codes calls) := by
  induction calls generalizing codes with
  | nil => exact h
  | cons call rest ih => exact ih (h.run call)

theorem KeysMatchCodes.initialCodes : KeysMatchCodes initialCodes := by
  intro k v hk
  by_cases hk0 : k = 0
  · subst hk0
    have h0 : Errors.initialCodes 0 = some (.default unknownCoder) := rfl
    rw [h0] at hk
    cases hk
    rfl
  · have hnone : Errors.initialCodes k = none := by
      simp [Errors.initialCodes, init, Registry.set, codes, unknownCoder, defaultCoder.Code, hk0]
    rw [hnone] at hk
    cases hk

/-- The calls made by `init` of `mocks_test.go`, as a call sequence. -/
theorem mocksCodes_eq_runCalls :
    mocksCodes = runCalls initialCodes
      [.register (.default ⟨500, ConfigurationNotValid, "ConfigurationNotValid error"⟩),
       .register (.default ⟨500, ErrInvalidJSON, "Data is not valid JSON"⟩),
       .register (.default ⟨500, ErrEOF, "End of input"⟩),
       .register (.default ⟨500, ErrLoadConfigFailed, "Load configuration file failed"⟩)] :=
  rfl

/-- C17: in the initial registry and after every finite sequence of `Register`
and `MustRegister` calls, an entry stored under key `k` has `Code` equal to
`k`; hence `ParseCoder` of a chain node carrying `k` returns that entry, whose
`Code` is `k`. -/
theorem keys_match_codes_invariant (calls : List Call) (k : Int) (v : Coder)
    (h : runCalls initialCodes calls k = some v) :
    v.Code = k ∧
      (∀ (message : String) (cause : Error),
        ParseCoder (runCalls initialCodes calls) (.withCode message k cause) = some v) := by
  refine ⟨KeysMatchCodes.runCalls calls KeysMatchCodes.initialCodes k v h, ?_⟩
  intro message cause
  simp [ParseCoder, h]

/-- Instance of C17: the entry for 1001 after one `Register` and one
`MustRegister` over the initial table. -/
theorem keys_match_codes_invariant_witness :
    (Coder.custom 404 1001 "not valid JSON").Code = 1001 ∧
      (∀ (message : String) (cause : Error),
        ParseCoder
          (runCalls initialCodes
            [.register (.default ⟨500, 1000, "first"⟩),
             .mustRegister (.custom 404 1001 "not valid JSON")])
          (.withCode message 1001 cause) = some (.custom 404 1001 "not valid JSON")) :=
  keys_match_codes_invariant
    [.register (.default ⟨500, 1000, "first"⟩),
     .mustRegister (.custom 404 1001 "not valid JSON")]
    1001 (.custom 404 1001 "not valid JSON") (by rfl)

/-! ## Classification against membership -/

/-- C18: over every registry reached from the initial one by `Register` and
`MustRegister` calls, if `ParseCoder err` returns metadata whose `Code` is a
non-zero `c` then `IsCode err c` is true; the converse fails: over the test
registry the `loadConfig` chain contains the registered code 1001, yet
`ParseCoder` returns the metadata of 1000. -/
theorem ParseCoder_code_implies_IsCode :
    (∀ (calls : List Call) (err : Error) (c : Int) (r : Coder), c ≠ 0 →
      ParseCoder (runCalls initialCodes calls) err = some r → r.Code = c →
        IsCode err c = true) ∧
    (IsCode loadConfig 1001 = true ∧
      mocksCodes 1001 = some (.default ⟨500, 1001, "Data is not valid JSON"⟩) ∧
      ParseCoder mocksCodes loadConfig
        = some (.default ⟨500, 1000, "ConfigurationNotValid error"⟩) ∧
      (Coder.default ⟨500, 1000, "ConfigurationNotValid error"⟩).Code ≠ 1001) := by
  refine ⟨?_, by decide, by rfl, by rfl, by decide⟩
  intro calls err c r hc hp hr
  cases err with
  | nil => simp [ParseCoder] at hp
  | other text wrapped =>
    simp only [ParseCoder, Option.some.injEq] at hp
    subst hp
    exact absurd hr.symm hc
  | withCode message vcode cause =>
    cases hlook : runCalls initialCodes calls vcode with
    | none =>
      simp only [ParseCoder, hlook, Option.some.injEq] at hp
      subst hp
      exact absurd hr.symm hc
    | some entry =>
      simp only [ParseCoder, hlook, Option.some.injEq] at hp
      subst hp
      have hkey : entry.Code = vcode :=
        KeysMatchCodes.runCalls calls KeysMatchCodes.initialCodes vcode entry hlook
      rw [IsCode_withCode]
      have hv : vcode = c := by rw [← hkey, hr]
      simp [hv]

/-- Instance of C18: the test registry, the `loadConfig` chain and code 1000. -/
theorem ParseCoder_code_implies_IsCode_witness : IsCode loadConfig 1000 = true :=
  ParseCoder_code_implies_IsCode.1
    [.register (.default ⟨500, ConfigurationNotValid, "ConfigurationNotValid error"⟩),
     .register (.default ⟨500, ErrInvalidJSON, "Data is not valid JSON"⟩),
     .register (.default ⟨500, ErrEOF, "End of input"⟩),
     .register (.default ⟨500, ErrLoadConfigFailed, "Load configuration file failed"⟩)]
    loadConfig 1000 (.default ⟨500, 1000, "ConfigurationNotValid error"⟩)
    (by decide) (by rfl) (by rfl)

/-! ## Atomicity of the fatal paths -/

/-- C19: for every registry state and every metadata `m`, if `Register m` or
`MustRegister m` panics, the table afterwards is identical to the table before
the call. -/
theorem panic_leaves_registry_unchanged (codes : Registry) (m : Coder) :
    ((Register codes m).panicked.isSome = true → (Register codes m).codes = codes) ∧
      ((MustRegister codes m).panicked.isSome = true →
        (MustRegister codes m).codes = codes) := by
  by_cases h0 : m.Code = 0
  · rw [Register_of_zero codes m h0, MustRegister_of_zero codes m h0]
    exact ⟨fun _ => rfl, fun _ => rfl⟩
  · rw [Register_of_ne_zero codes m h0]
    refine ⟨fun h => by simp at h, ?_⟩
    cases hold : codes m.Code with
    | none =>
      rw [MustRegister_of_absent codes m h0 hold]
      intro h
      simp at h
    | some old =>
      rw [MustRegister_of_present codes m old h0 hold]
      exact fun _ => rfl

/-- Instance of C19: `Register` of code 0 and `MustRegister` of the taken code
1000, both over the test table. -/
theorem panic_leaves_registry_unchanged_witness :
    (Register mocksCodes (.default ⟨404, 0, "zero"⟩)).panicked.isSome = true ∧
    (Register mocksCodes (.default ⟨404, 0, "zero"⟩)).codes = mocksCodes ∧
    (MustRegister mocksCodes (.default ⟨404, 1000, "taken"⟩)).panicked.isSome = true ∧
    (MustRegister mocksCodes (.default ⟨404, 1000, "taken"⟩)).codes = mocksCodes :=
  ⟨by rfl,
    (panic_leaves_registry_unchanged mocksCodes (.default ⟨404, 0, "zero"⟩)).1 (by rfl),
    by rfl,
    (panic_leaves_registry_unchanged mocksCodes (.default ⟨404, 1000, "taken"⟩)).2 (by rfl)⟩

/-! ## Order and repetition of `Register` -/

/-- C20: for every registry state and every two metadata values with distinct
non-zero codes, `Register m1` then `Register m2` leaves the same table as
`Register m2` then `Register m1`; and `Register m1` twice leaves the same table
as `Register m1` once. -/
theorem Register_commutes_and_idempotent (codes : Registry) (m1 m2 : Coder)
    (h1 : m1.Code ≠ 0) (h2 : m2.Code ≠ 0) (hne : m1.Code ≠ m2.Code) :
    (Register (Register codes m1).codes m2).codes
        = (Register (Register codes m2).codes m1).codes ∧
      (Register (Register codes m1).codes m1).codes = (Register codes m1).codes := by
  simp only [Register_of_ne_zero _ m1 h1, Register_of_ne_zero _ m2 h2]
  constructor
  · funext k
    simp only [Registry.set]
    by_cases hk2 : k = m2.Code
    · subst hk2
      simp [Ne.symm hne]
    · simp [hk2]
  · funext k
    simp only [Registry.set]
    split <;> rfl

/-- Instance of C20: codes 7 and 8 over the initial table. -/
theorem Register_commutes_and_idempotent_witness :
    (Register (Register initialCodes (.default ⟨400, 7, "seven"⟩)).codes
        (.default ⟨404, 8, "eight"⟩)).codes
        = (Register (Register initialCodes (.default ⟨404, 8, "eight"⟩)).codes
            (.default ⟨400, 7, "seven"⟩)).codes ∧
      (Register (Register initialCodes (.default ⟨400, 7, "seven"⟩)).codes
        (.default ⟨400, 7, "seven"⟩)).codes
        = (Register initialCodes (.default ⟨400, 7, "seven"⟩)).codes :=
  Register_commutes_and_idempotent initialCodes (.default ⟨400, 7, "seven"⟩)
    (.default ⟨404, 8, "eight"⟩) (by decide) (by decide) (by decide)

end Errors
